import Mathlib

/-!
Verification of the OpenAPI generator in JerkyTreats/llm (cmd/generate-openapi).

The development shallowly embeds the analyzer package: the route-to-operation
compiler and document assembler are translated from analyzer/spec_builder.go;
the type reflector (Generator.generateTypeSchema and friends), whose source
file is absent from the snapshot (only its tests reference it), is modelled
from the specification, as marked on each such definition.

Go maps are embedded as association lists with insert-overwrite semantics;
Go strings are manipulated through their character lists so that every
definition evaluates by kernel reduction.
-/

set_option autoImplicit false

namespace LlmOpenapi

/-! ### Association maps (embedding of Go maps, insertion ordered) -/

def smapInsert {α : Type} : List (String × α) → String → α → List (String × α)
  | [], k, v => [(k, v)]
  | (k', v') :: rest, k, v =>
    if k' = k then (k, v) :: rest else (k', v') :: smapInsert rest k v

def smapLookup {α : Type} : List (String × α) → String → Option α
  | [], _ => none
  | (k', v') :: rest, k => if k' = k then some v' else smapLookup rest k

/-! ### Go string helpers (character-list based, kernel reducible) -/

/-- Embedding of strings.Split for a single-character separator. -/
def splitChar : List Char → Char → List (List Char)
  | [], _ => [[]]
  | x :: xs, c =>
    match splitChar xs c with
    | [] => [[]]
    | g :: gs => if x = c then [] :: g :: gs else (x :: g) :: gs

def goSplit (s : String) (c : Char) : List String :=
  (splitChar s.toList c).map String.mk

def goToUpper (s : String) : String :=
  String.mk (s.toList.map Char.toUpper)

def goToLower (s : String) : String :=
  String.mk (s.toList.map Char.toLower)

/-- Embedding of strings.Contains via a character-list search. -/
def containsSeq : List Char → List Char → Bool
  | l, pat =>
    match l with
    | [] => pat.isEmpty
    | _ :: xs => pat.isPrefixOf l || containsSeq xs pat

def goContains (s sub : String) : Bool :=
  containsSeq s.toList sub.toList

/-- Embedding of strings.Trim for a single-character cutset. -/
def goTrim (s : String) (c : Char) : String :=
  String.mk (((s.toList.dropWhile (· = c)).reverse.dropWhile (· = c)).reverse)

/-- Separator test used by strings.Title (ASCII fragment): ASCII alphanumerics
and underscore are not separators, every other ASCII character is. -/
def titleSeparator (c : Char) : Bool :=
  !(c.isAlphanum || c = '_')

def goTitleAux : Char → List Char → List Char
  | _, [] => []
  | prev, c :: cs => (if titleSeparator prev then c.toUpper else c) :: goTitleAux c cs

/-- Embedding of strings.Title: capitalize each character that follows a
separator (the start of the string counts as following a separator). -/
def goTitle (s : String) : String :=
  String.mk (goTitleAux ' ' s.toList)

/-! ### The Go type model -/

/-- Primitive kinds of the reflect package that the reflector distinguishes. -/
inductive GoKind where
  | boolK | intK | int8K | int16K | int32K | int64K
  | uintK | uint8K | uint16K | uint32K | uint64K
  | float32K | float64K | stringK
  deriving DecidableEq, Repr

def isIntegerKind : GoKind → Bool
  | .intK | .int8K | .int16K | .int32K | .int64K
  | .uintK | .uint8K | .uint16K | .uint32K | .uint64K => true
  | _ => false

def isFloatKind : GoKind → Bool
  | .float32K | .float64K => true
  | _ => false

/-- Shapes of Go types as seen through reflection.  Named struct types are
referenced by name and resolved through a struct environment, so that
self-referential field graphs are representable. -/
inductive GoType where
  | basic (k : GoKind)
  | timeT
  | ptr (t : GoType)
  | slice (t : GoType)
  | arrayT (t : GoType)
  | mapT (key value : GoType)
  | anyT
  | structT (name : String)
  | otherShape
  deriving DecidableEq, Repr

/-- One declared struct field: Go field name, raw json tag (none when the
field carries no json tag), and field type. -/
structure Field where
  name : String
  tag : Option String
  type : GoType
  deriving DecidableEq, Repr

/-- Environment assigning each named struct type its declared field list. -/
def StructEnv : Type := List (String × List Field)

/-- Generated schema fragments, mirroring the map[string]interface representations
the generator produces. -/
inductive Schema where
  | prim (ty : String) (format : Option String)
  | arr (items : Schema)
  | obj (properties : List (String × Schema)) (required : List String)
  | objAny
  | objTyped (values : Schema)
  | ref (name : String)
  | unknownObj
  deriving Repr

/-! ### json tag parsing -/

structure TagInfo where
  name : Option String
  excluded : Bool
  omitEmpty : Bool
  deriving DecidableEq, Repr

/-- Parse a json struct tag the way encoding/json does: the part before the
first comma is the name ("-" alone excludes the field, an empty name falls
back to the Go field name), and "omitempty" among the options marks the
field optional. -/
def parseJsonTag : Option String → TagInfo
  | none => { name := none, excluded := false, omitEmpty := false }
  | some tag =>
    let parts := goSplit tag ','
    let namePart := parts.headD ""
    if namePart = "-" ∧ parts.length = 1 then
      { name := none, excluded := true, omitEmpty := false }
    else
      { name := if namePart = "" then none else some namePart,
        excluded := false,
        omitEmpty := parts.tail.contains "omitempty" }

def fieldExtName (f : Field) : String :=
  (parseJsonTag f.tag).name.getD f.name

def fieldExcluded (f : Field) : Bool :=
  (parseJsonTag f.tag).excluded

def fieldOmitEmpty (f : Field) : Bool :=
  (parseJsonTag f.tag).omitEmpty

def isPtrType : GoType → Bool
  | .ptr _ => true
  | _ => false

/-- Modelled from the spec: primitive kind mapping of the missing
Generator.generateTypeSchema — all integer widths map to integer, all float
widths to number, boolean to boolean, textual to string. -/
def basicKindSchema (k : GoKind) : Schema :=
  if isIntegerKind k then .prim "integer" none
  else if isFloatKind k then .prim "number" none
  else if k = .boolK then .prim "boolean" none
  else .prim "string" none

/-- Modelled from the spec: the required list of a struct schema — a field is
required unless it is excluded, marked omitempty, or of pointer shape, in
field-declaration order. -/
def structRequired (fields : List Field) : List String :=
  fields.filterMap (fun f =>
    if !fieldExcluded f && !fieldOmitEmpty f && !isPtrType f.type then
      some (fieldExtName f)
    else none)

/-! ### Termination measure for the reflector -/

/-- Number of named struct types of the environment not yet reserved in the
cache; reserving a fresh name strictly decreases it. -/
def unresolvedCount (env : StructEnv) (cache : List String) : Nat :=
  (((env.map Prod.fst).dedup).filter (fun n => !(cache.contains n))).length

theorem length_filter_le {α : Type} (l : List α) (p q : α → Bool)
    (himp : ∀ x, q x = true → p x = true) :
    (l.filter q).length ≤ (l.filter p).length := by
  induction l with
  | nil => simp
  | cons x xs ih =>
    by_cases hq : q x = true
    · simp [List.filter_cons, hq, himp x hq]; omega
    · simp only [List.filter_cons]
      rw [Bool.not_eq_true] at hq
      rw [hq]
      by_cases hp : p x = true
      · simp [hp]; omega
      · rw [Bool.not_eq_true] at hp; rw [hp]; simpa using ih

theorem length_filter_lt {α : Type} (l : List α) (p q : α → Bool)
    (himp : ∀ x, q x = true → p x = true)
    (n : α) (hn : n ∈ l) (hp : p n = true) (hq : q n = false) :
    (l.filter q).length < (l.filter p).length := by
  induction l with
  | nil => cases hn
  | cons x xs ih =>
    rcases List.mem_cons.mp hn with hx | hx
    · subst hx
      simp only [List.filter_cons, hp, hq]
      simp only [if_true, if_false]
      have := length_filter_le xs p q himp
      simp; omega
    · by_cases hqx : q x = true
      · simp [List.filter_cons, hqx, himp x hqx]
        exact ih hx
      · rw [Bool.not_eq_true] at hqx
        simp only [List.filter_cons, hqx, if_false]
        by_cases hpx : p x = true
        · simp only [hpx, if_true]
          have := ih hx
          simp; omega
        · rw [Bool.not_eq_true] at hpx
          simp only [hpx, if_false]
          exact ih hx

theorem smapLookup_mem_keys {α : Type} (m : List (String × α)) (k : String) (v : α)
    (h : smapLookup m k = some v) : k ∈ m.map Prod.fst := by
  induction m with
  | nil => simp [smapLookup] at h
  | cons kv rest ih =>
    by_cases hk : kv.1 = k
    · simp [hk]
    · simp only [smapLookup, hk, if_false] at h
      simp [ih h]

theorem unresolvedCount_cons_lt (env : StructEnv) (cache : List String) (n : String)
    (hmem : n ∈ env.map Prod.fst) (hc : n ∉ cache) :
    unresolvedCount env (n :: cache) < unresolvedCount env cache := by
  apply length_filter_lt
  · intro x hx
    simp only [List.contains, Bool.not_eq_true', List.elem_eq_mem,
      decide_eq_false_iff_not] at hx ⊢
    intro hmemx
    exact hx (List.mem_cons_of_mem _ hmemx)
  · exact List.mem_dedup.mpr hmem
  · simp only [List.contains, Bool.not_eq_true', List.elem_eq_mem,
      decide_eq_false_iff_not]
    exact hc
  · simp [List.contains]

/-! ### The type reflector (modelled from the spec) -/

mutual

/-- Modelled from the spec: Generator.generateTypeSchema, whose defining source
file is not in the repository snapshot (only analyzer/generator_test.go
exercises it).  Priority order follows the spec: pointer unwrap, time.Time,
primitive kinds, sequences, string-keyed maps, named composites through the
placeholder cache (names already reserved resolve to a reference), and an
opaque object fallback for everything else.  The function is total — schema
reflection never returns an error. -/
def resolveType (env : StructEnv) : List String → GoType → Schema
  | cache, .ptr t => resolveType env cache t
  | _, .timeT => .prim "string" (some "date-time")
  | _, .basic k => basicKindSchema k
  | cache, .slice t => .arr (resolveType env cache t)
  | cache, .arrayT t => .arr (resolveType env cache t)
  | _, .mapT (.basic .stringK) .anyT => .objAny
  | cache, .mapT (.basic .stringK) v => .objTyped (resolveType env cache v)
  | _, .mapT _ _ => .unknownObj
  | _, .anyT => .unknownObj
  | _, .otherShape => .unknownObj
  | cache, .structT n =>
    if hc : n ∈ cache then .ref n
    else
      match hl : smapLookup env n with
      | some fields => .obj (resolveProps env (n :: cache) fields) (structRequired fields)
      | none => .unknownObj
termination_by cache t => (unresolvedCount env cache, sizeOf t)
decreasing_by
  all_goals simp_wf
  · exact Prod.Lex.right _ (by simp)
  · exact Prod.Lex.right _ (by simp)
  · exact Prod.Lex.right _ (by simp)
  · exact Prod.Lex.right _ (by simp)
  · exact Prod.Lex.left _ _
      (unresolvedCount_cons_lt env cache n (smapLookup_mem_keys env n fields hl) hc)

/-- Modelled from the spec: property construction over a struct's declared
fields — excluded fields are omitted entirely, every other field contributes
its external name and reflected type, in declaration order. -/
def resolveProps (env : StructEnv) : List String → List Field → List (String × Schema)
  | _, [] => []
  | cache, f :: fs =>
    if fieldExcluded f = true then resolveProps env cache fs
    else (fieldExtName f, resolveType env cache f.type) :: resolveProps env cache fs
termination_by cache fs => (unresolvedCount env cache, sizeOf fs)
decreasing_by
  all_goals simp_wf
  · exact Prod.Lex.right _ (by simp)
  · refine Prod.Lex.right _ ?_
    obtain ⟨nm, tg, ty⟩ := f
    simp
    omega
  · exact Prod.Lex.right _ (by simp)

end

/-! ### Canonical type names (modelled from the spec and the generator tests) -/

/-- Modelled from the spec: Generator.getTypeName, whose defining source file
is not in the snapshot; behaviour follows its test table — a named struct maps
to its short name, a sequence to the element name suffixed with Array, a
primitive kind to its Go kind name. -/
def getTypeName : GoType → String
  | .basic .boolK => "bool"
  | .basic .intK => "int"
  | .basic .int8K => "int8"
  | .basic .int16K => "int16"
  | .basic .int32K => "int32"
  | .basic .int64K => "int64"
  | .basic .uintK => "uint"
  | .basic .uint8K => "uint8"
  | .basic .uint16K => "uint16"
  | .basic .uint32K => "uint32"
  | .basic .uint64K => "uint64"
  | .basic .float32K => "float32"
  | .basic .float64K => "float64"
  | .basic .stringK => "string"
  | .timeT => "Time"
  | .ptr t => getTypeName t
  | .slice t => getTypeName t ++ "Array"
  | .arrayT t => getTypeName t ++ "Array"
  | .mapT _ _ => "map[string]interface \x7b\x7d"
  | .anyT => "interface \x7b\x7d"
  | .structT n => n
  | .otherShape => ""

/-! ### Route and document data model (from analyzer/spec_builder.go) -/

/-- RouteInfo tuples supplied by the route registry. -/
structure RouteInfo where
  method : String
  path : String
  requestType : Option GoType
  responseType : Option GoType
  module : String
  summary : String
  deriving Repr

structure SchemaRef where
  ref : String
  deriving DecidableEq, Repr

structure MediaTypeObject where
  schema : SchemaRef
  deriving DecidableEq, Repr

structure RequestBody where
  description : String
  required : Bool
  content : List (String × MediaTypeObject)
  deriving DecidableEq, Repr

structure Response where
  description : String
  content : List (String × MediaTypeObject)
  deriving DecidableEq, Repr

structure Operation where
  tags : List String
  summary : String
  description : String
  operationID : String
  requestBody : Option RequestBody
  responses : List (String × Response)
  deriving Repr

structure PathItem where
  get : Option Operation := none
  post : Option Operation := none
  put : Option Operation := none
  delete : Option Operation := none
  deriving Repr

structure Info where
  title : String
  description : String
  version : String
  deriving Repr

structure Server where
  url : String
  description : String
  deriving Repr

structure Components where
  schemas : List (String × Schema)
  deriving Repr

structure OpenAPISpec where
  openapi : String
  info : Info
  servers : List Server
  paths : List (String × PathItem)
  components : Components
  deriving Repr

/-- Generator state: the discovered route list and the type schema cache. -/
structure Generator where
  routes : List RouteInfo
  typeSchemas : List (String × Schema)
  deriving Repr

/-! ### Route-to-operation compiler (from analyzer/spec_builder.go) -/

/-- Embedding of generateOperationID: split the trimmed path on slashes and
hyphens, derive a verb from the method (with the list/add/create overrides),
then join, passing every fragment after the first through strings.Title. -/
def generateOperationID (route : RouteInfo) : String :=
  let pathParts := goSplit (goTrim route.path '/') '/'
  let allParts := pathParts.foldl
    (fun acc pathPart =>
      if pathPart = "" then acc else acc ++ goSplit pathPart '-') []
  let verb : String :=
    match goToUpper route.method with
    | "GET" => if goContains route.path "list" then "list" else "get"
    | "POST" =>
      if goContains route.path "add" || goContains route.path "create" then "create"
      else "post"
    | "PUT" => "update"
    | "DELETE" => "delete"
    | _ => goToLower route.method
  let operationParts :=
    verb :: (allParts.enum.filterMap (fun p =>
      if p.2 = "" then none
      else if p.1 = 0 then some p.2
      else some (goTitle p.2)))
  String.join operationParts

/-- Embedding of buildRequestBody: required body referencing the named schema
of the route request type, described from the route summary. -/
def buildRequestBody (route : RouteInfo) : RequestBody :=
  let typeName := getTypeName (route.requestType.getD .otherShape)
  { description := "Request body for " ++ route.summary
    required := true
    content := [("application/json",
      { schema := { ref := "#/components/schemas/" ++ typeName } })] }

/-- Embedding of buildResponses: a 200 success entry (referencing the response
type schema when declared), 400 and 500 entries referencing ErrorResponse,
and a 422 entry for every method other than GET. -/
def buildResponses (route : RouteInfo) : List (String × Response) :=
  let responses : List (String × Response) := []
  let responses :=
    match route.responseType with
    | some t =>
      smapInsert responses "200"
        { description := "Success"
          content := [("application/json",
            { schema := { ref := "#/components/schemas/" ++ getTypeName t } })] }
    | none =>
      smapInsert responses "200" { description := "Success", content := [] }
  let responses := smapInsert responses "400"
    { description := "Bad Request"
      content := [("application/json",
        { schema := { ref := "#/components/schemas/ErrorResponse" } })] }
  let responses := smapInsert responses "500"
    { description := "Internal Server Error"
      content := [("application/json",
        { schema := { ref := "#/components/schemas/ErrorResponse" } })] }
  if goToUpper route.method ≠ "GET" then
    smapInsert responses "422"
      { description := "Unprocessable Entity"
        content := [("application/json",
          { schema := { ref := "#/components/schemas/ErrorResponse" } })] }
  else responses

/-- Embedding of buildOperation: tags, summary, operation id and responses,
with a request body added for non-GET methods that declare a request type. -/
def buildOperation (route : RouteInfo) : Operation :=
  let operation : Operation :=
    { tags := [route.module]
      summary := route.summary
      description := ""
      operationID := generateOperationID route
      requestBody := none
      responses := buildResponses route }
  if route.requestType.isSome = true ∧ goToUpper route.method ≠ "GET" then
    { operation with requestBody := some (buildRequestBody route) }
  else operation

/-! ### Document assembler (from analyzer/spec_builder.go) -/

/-- The four first-class operation slots of a path item. -/
inductive HttpSlot where
  | get | post | put | delete
  deriving DecidableEq, Repr

/-- Which slot the switch in buildPaths assigns for an (upper-cased) method;
none mirrors the switch falling through for unsupported methods. -/
def methodSlotOf (s : String) : Option HttpSlot :=
  if s = "GET" then some .get
  else if s = "POST" then some .post
  else if s = "PUT" then some .put
  else if s = "DELETE" then some .delete
  else none

def setSlot (pathItem : PathItem) : Option HttpSlot → Operation → PathItem
  | some .get, operation => { pathItem with get := some operation }
  | some .post, operation => { pathItem with post := some operation }
  | some .put, operation => { pathItem with put := some operation }
  | some .delete, operation => { pathItem with delete := some operation }
  | none, _ => pathItem

def getSlot (pathItem : PathItem) : HttpSlot → Option Operation
  | .get => pathItem.get
  | .post => pathItem.post
  | .put => pathItem.put
  | .delete => pathItem.delete

def buildPathsAux : List RouteInfo → List (String × PathItem) → List (String × PathItem)
  | [], paths => paths
  | route :: rest, paths =>
    let pathItem := (smapLookup paths route.path).getD {}
    let operation := buildOperation route
    let pathItem := setSlot pathItem (methodSlotOf (goToUpper route.method)) operation
    buildPathsAux rest (smapInsert paths route.path pathItem)

/-- Embedding of buildPaths: fold every route into the path-keyed table,
fetching or creating the path entry and slotting the operation under the
method switch; the entry is stored back unconditionally. -/
def buildPaths (routes : List RouteInfo) : List (String × PathItem) :=
  buildPathsAux routes []

/-- The document structure assembled by buildOpenAPISpec before serialization. -/
def assembleSpec (g : Generator) : OpenAPISpec :=
  { openapi := "3.0.3"
    info :=
      { title := "LLM API"
        description := "Auto-generated API documentation for LLM service with zero-maintenance updates"
        version := "1.0.0" }
    servers := [{ url := "http://localhost:8080", description := "Development server" }]
    paths := buildPaths g.routes
    components := { schemas := g.typeSchemas } }

def specHeader : String :=
  "# Auto-generated OpenAPI specification\n# DO NOT EDIT MANUALLY - Changes will be overwritten\n\n"

/-- Embedding of buildOpenAPISpec: serialize the assembled document with the
supplied YAML marshaller (an external collaborator, passed as a parameter);
on failure it emits a commented error line instead of raising. -/
def buildOpenAPISpec (marshal : OpenAPISpec → Except String String) (g : Generator) : String :=
  match marshal (assembleSpec g) with
  | .error e => "# Error generating YAML: " ++ e ++ "\n"
  | .ok yamlData => specHeader ++ yamlData

/-! ### Standard schemas and spec generation -/

/-- Modelled from the spec: the fixed ErrorResponse envelope injected by
addStandardSchemas — an object with required error, message and status
properties, per spec section 4.4 and the generator tests. -/
def errorResponseSchema : Schema :=
  .obj
    [("error", .prim "string" none),
     ("message", .prim "string" none),
     ("status", .prim "integer" none)]
    ["error", "message", "status"]

/-- Modelled from the spec: Generator.addStandardSchemas, absent from the
snapshot — adds the ErrorResponse schema to the shared table exactly once. -/
def addStandardSchemas (g : Generator) : Generator :=
  { g with typeSchemas := smapInsert g.typeSchemas "ErrorResponse" errorResponseSchema }

/-- Modelled from the spec: Generator.generateSchemas, absent from the
snapshot — reflects each route request and response type and stores the
schema under its canonical name. -/
def generateSchemas (env : StructEnv) (g : Generator) : Generator :=
  let schemas := g.routes.foldl
    (fun m route =>
      let m :=
        match route.requestType with
        | some t => smapInsert m (getTypeName t) (resolveType env [] t)
        | none => m
      match route.responseType with
      | some t => smapInsert m (getTypeName t) (resolveType env [] t)
      | none => m)
    g.typeSchemas
  { g with typeSchemas := schemas }

/-- Modelled from the spec: Generator.GenerateSpec, absent from the snapshot —
fails with the "no routes discovered" precondition error when the route list
is empty (the only validation failure), otherwise generates schemas, adds the
standard schemas and serializes the document. -/
def GenerateSpec (marshal : OpenAPISpec → Except String String) (env : StructEnv)
    (g : Generator) : Except String String :=
  if g.routes.isEmpty then .error "no routes discovered"
  else .ok (buildOpenAPISpec marshal (addStandardSchemas (generateSchemas env g)))

/-! ### General helper lemmas -/

theorem stringAppend_ne_empty (s t : String) (h : s.length ≠ 0) : s ++ t ≠ "" := by
  intro hc
  apply h
  have hlen := congrArg String.length hc
  rw [String.length_append] at hlen
  simp only [String.length_empty] at hlen
  omega

/-! ### Claim C2: operation identifier examples -/

/-- Concrete route used by the operation-identifier examples. -/
def opExampleRoute (m p : String) : RouteInfo :=
  { method := m, path := p, requestType := none, responseType := none,
    module := "", summary := "" }

/-- Claim C2 (counterexample): the fifth example of the specification is wrong
on the code — POST /api/v1/user-management/create-admin yields the identifier
createapiV1UserManagementCreateAdmin (the first path fragment is appended
verbatim, not capitalized), not createApiV1UserManagementCreateAdmin. -/
theorem generateOperationID_complex_example_false :
    generateOperationID (opExampleRoute "POST" "/api/v1/user-management/create-admin") =
      "createapiV1UserManagementCreateAdmin" ∧
    generateOperationID (opExampleRoute "POST" "/api/v1/user-management/create-admin") ≠
      "createApiV1UserManagementCreateAdmin" := by
  exact ⟨by decide, by decide⟩

/-- Claim C2 (amended): the five examples of the specification, with the fifth
output corrected to createapiV1UserManagementCreateAdmin as the code and its
own test table produce. -/
theorem generateOperationID_examples :
    generateOperationID (opExampleRoute "GET" "/health") = "gethealth" ∧
    generateOperationID (opExampleRoute "POST" "/add-record") = "createaddRecord" ∧
    generateOperationID (opExampleRoute "PUT" "/update-user") = "updateupdateUser" ∧
    generateOperationID (opExampleRoute "DELETE" "/remove-item") = "deleteremoveItem" ∧
    generateOperationID (opExampleRoute "POST" "/api/v1/user-management/create-admin") =
      "createapiV1UserManagementCreateAdmin" := by
  exact ⟨by decide, by decide, by decide, by decide, by decide⟩

/-! ### Claim C3: the compiled response table -/

/-- Claim C3: every compiled response table has a 200 success entry —
referencing the response type schema when one is declared, bare otherwise —
400 and 500 entries referencing the ErrorResponse components schema, and a
422 entry (also referencing ErrorResponse) exactly when the method is not
GET. -/
theorem buildResponses_table (route : RouteInfo) :
    (∀ t, route.responseType = some t →
      smapLookup (buildResponses route) "200" = some
        { description := "Success"
          content := [("application/json",
            { schema := { ref := "#/components/schemas/" ++ getTypeName t } })] }) ∧
    (route.responseType = none →
      smapLookup (buildResponses route) "200" =
        some { description := "Success", content := [] }) ∧
    smapLookup (buildResponses route) "400" = some
      { description := "Bad Request"
        content := [("application/json",
          { schema := { ref := "#/components/schemas/ErrorResponse" } })] } ∧
    smapLookup (buildResponses route) "500" = some
      { description := "Internal Server Error"
        content := [("application/json",
          { schema := { ref := "#/components/schemas/ErrorResponse" } })] } ∧
    ((smapLookup (buildResponses route) "422").isSome ↔ goToUpper route.method ≠ "GET") ∧
    (goToUpper route.method ≠ "GET" →
      smapLookup (buildResponses route) "422" = some
        { description := "Unprocessable Entity"
          content := [("application/json",
            { schema := { ref := "#/components/schemas/ErrorResponse" } })] }) := by
  by_cases hm : goToUpper route.method = "GET" <;>
    rcases hre : route.responseType with _ | t <;>
      simp [buildResponses, smapInsert, smapLookup, hm, hre]

/-- Claim C3 witness at a concrete POST route with a declared response type. -/
theorem buildResponses_table_witness :
    (smapLookup (buildResponses
        { method := "POST", path := "/test",
          requestType := some (.structT "TestRequest"),
          responseType := some (.structT "TestResponse"),
          module := "test", summary := "Test endpoint" }) "200" = some
      { description := "Success"
        content := [("application/json",
          { schema := { ref := "#/components/schemas/TestResponse" } })] }) ∧
    (smapLookup (buildResponses
        { method := "POST", path := "/test",
          requestType := some (.structT "TestRequest"),
          responseType := some (.structT "TestResponse"),
          module := "test", summary := "Test endpoint" }) "422").isSome := by
  refine ⟨(buildResponses_table _).1 (.structT "TestResponse") rfl, ?_⟩
  exact ((buildResponses_table
    { method := "POST", path := "/test",
      requestType := some (.structT "TestRequest"),
      responseType := some (.structT "TestResponse"),
      module := "test", summary := "Test endpoint" }).2.2.2.2.1).mpr (by decide)

/-! ### Claim C7: the request body rule -/

/-- Claim C7: a compiled operation has a request body exactly when the route
declares a request type and the method is not GET; when present the body is
required, references the named components schema of the request type, and its
description is derived from the route summary and non-empty. -/
theorem buildOperation_requestBody_rule (route : RouteInfo) :
    ((buildOperation route).requestBody = none ↔
      (route.requestType = none ∨ goToUpper route.method = "GET")) ∧
    (∀ t, route.requestType = some t → goToUpper route.method ≠ "GET" →
      (buildOperation route).requestBody = some
        { description := "Request body for " ++ route.summary
          required := true
          content := [("application/json",
            { schema := { ref := "#/components/schemas/" ++ getTypeName t } })] }) ∧
    (∀ rb, (buildOperation route).requestBody = some rb → rb.description ≠ "") := by
  refine ⟨?_, ?_, ?_⟩
  · by_cases hm : goToUpper route.method = "GET" <;>
      rcases hrt : route.requestType with _ | t <;>
        simp [buildOperation, hm, hrt]
  · intro t ht hm
    simp [buildOperation, ht, hm, buildRequestBody]
  · intro rb hrb
    by_cases hm : goToUpper route.method = "GET" <;>
      rcases hrt : route.requestType with _ | t <;>
        simp [buildOperation, hm, hrt] at hrb
    rw [← hrb]
    exact stringAppend_ne_empty "Request body for " route.summary (by decide)

/-- Claim C7 witness: a POST route with a request type carries the expected
required request body; a GET route carries none. -/
theorem buildOperation_requestBody_rule_witness :
    (buildOperation
        { method := "POST", path := "/test",
          requestType := some (.structT "TestRequest"),
          responseType := some (.structT "TestResponse"),
          module := "test", summary := "Test endpoint" }).requestBody = some
      { description := "Request body for Test endpoint"
        required := true
        content := [("application/json",
          { schema := { ref := "#/components/schemas/TestRequest" } })] } ∧
    (buildOperation
        { method := "GET", path := "/test", requestType := none,
          responseType := some (.structT "TestResponse"),
          module := "test", summary := "Get test data" }).requestBody = none := by
  constructor
  · exact (buildOperation_requestBody_rule _).2.1 (.structT "TestRequest") rfl (by decide)
  · exact ((buildOperation_requestBody_rule
      { method := "GET", path := "/test", requestType := none,
        responseType := some (.structT "TestResponse"),
        module := "test", summary := "Get test data" }).1).mpr (Or.inl rfl)

/-! ### Claim C4: the empty-route precondition -/

/-- Claim C4: document assembly fails with the error "no routes discovered"
exactly when the route list is empty; for every non-empty route list the
assembler succeeds, so the empty-route precondition is its only validation
failure.  Reasoned against the spec-modelled GenerateSpec. -/
theorem generateSpec_no_routes (marshal : OpenAPISpec → Except String String)
    (env : StructEnv) (g : Generator) :
    (g.routes = [] → GenerateSpec marshal env g = .error "no routes discovered") ∧
    (g.routes ≠ [] → ∃ s, GenerateSpec marshal env g = .ok s) := by
  constructor
  · intro h
    simp [GenerateSpec, h]
  · intro h
    refine ⟨buildOpenAPISpec marshal (addStandardSchemas (generateSchemas env g)), ?_⟩
    simp [GenerateSpec, List.isEmpty_iff, h]

/-- Claim C4 witness: assembly on zero routes errors with the exact message,
and on one route succeeds. -/
theorem generateSpec_no_routes_witness :
    GenerateSpec (fun _ => .ok "body") [] { routes := [], typeSchemas := [] } =
      .error "no routes discovered" ∧
    ∃ s, GenerateSpec (fun _ => .ok "body") []
      { routes := [opExampleRoute "GET" "/health"], typeSchemas := [] } = .ok s := by
  constructor
  · exact (generateSpec_no_routes (fun _ => .ok "body") [] _).1 rfl
  · exact (generateSpec_no_routes (fun _ => .ok "body") [] _).2 (by simp)

/-! ### Claim C9: serialization always returns text -/

/-- Claim C9: serializing the assembled document never raises — the result is
the fixed two-line generated banner followed by the marshalled body on
success, and a commented error line when the structure cannot be encoded, so
the caller always receives non-empty text. -/
theorem buildOpenAPISpec_always_text (marshal : OpenAPISpec → Except String String)
    (g : Generator) :
    buildOpenAPISpec marshal g ≠ "" ∧
    ((∃ y, marshal (assembleSpec g) = .ok y ∧
        buildOpenAPISpec marshal g = specHeader ++ y) ∨
     (∃ e, marshal (assembleSpec g) = .error e ∧
        buildOpenAPISpec marshal g = "# Error generating YAML: " ++ e ++ "\n")) := by
  rcases hm : marshal (assembleSpec g) with e | y
  · refine ⟨?_, Or.inr ⟨e, rfl, by simp [buildOpenAPISpec, hm]⟩⟩
    simp only [buildOpenAPISpec, hm]
    rw [String.append_assoc]
    exact stringAppend_ne_empty "# Error generating YAML: " (e ++ "\n") (by decide)
  · refine ⟨?_, Or.inl ⟨y, rfl, by simp [buildOpenAPISpec, hm]⟩⟩
    simp only [buildOpenAPISpec, hm]
    exact stringAppend_ne_empty specHeader y (by decide)

/-! ### Association-map lemmas -/

theorem smapLookup_insert_self {α : Type} (m : List (String × α)) (k : String) (v : α) :
    smapLookup (smapInsert m k v) k = some v := by
  induction m with
  | nil => simp [smapInsert, smapLookup]
  | cons kv rest ih =>
    obtain ⟨k1, v1⟩ := kv
    by_cases hk : k1 = k
    · simp [smapInsert, hk, smapLookup]
    · simp [smapInsert, hk, smapLookup, ih]

theorem smapLookup_insert_ne {α : Type} (m : List (String × α)) (k : String) (v : α)
    (k2 : String) (h : k2 ≠ k) :
    smapLookup (smapInsert m k v) k2 = smapLookup m k2 := by
  induction m with
  | nil =>
    simp only [smapInsert, smapLookup]
    exact if_neg (fun hx => h hx.symm)
  | cons kv rest ih =>
    obtain ⟨k1, v1⟩ := kv
    by_cases hk : k1 = k
    · subst hk
      simp only [smapInsert, if_pos rfl, smapLookup]
      rw [if_neg (fun hx => h hx.symm), if_neg (fun hx => h hx.symm)]
    · simp [smapInsert, hk, smapLookup, ih]

theorem mem_keys_smapInsert {α : Type} (m : List (String × α)) (k : String) (v : α)
    (p : String) :
    p ∈ (smapInsert m k v).map Prod.fst ↔ p = k ∨ p ∈ m.map Prod.fst := by
  induction m with
  | nil => simp [smapInsert]
  | cons kv rest ih =>
    obtain ⟨k1, v1⟩ := kv
    by_cases hk : k1 = k
    · subst hk
      simp [smapInsert]
    · simp [smapInsert, hk, ih]
      tauto

theorem nodup_keys_smapInsert {α : Type} (m : List (String × α)) (k : String) (v : α)
    (h : (m.map Prod.fst).Nodup) :
    ((smapInsert m k v).map Prod.fst).Nodup := by
  induction m with
  | nil => simp [smapInsert]
  | cons kv rest ih =>
    obtain ⟨k1, v1⟩ := kv
    simp only [List.map_cons, List.nodup_cons] at h
    by_cases hk : k1 = k
    · subst hk
      simpa [smapInsert] using h
    · simp only [smapInsert, hk, if_false, List.map_cons, List.nodup_cons]
      refine ⟨?_, ih h.2⟩
      intro hmem
      rcases (mem_keys_smapInsert rest k v k1).mp hmem with h1 | h1
      · exact hk h1
      · exact h.1 h1

/-! ### Slot lemmas for the paths table -/

theorem getSlot_setSlot (pathItem : PathItem) (op : Operation)
    (os : Option HttpSlot) (m : HttpSlot) :
    getSlot (setSlot pathItem os op) m =
      if os = some m then some op else getSlot pathItem m := by
  rcases os with _ | s
  · simp [setSlot]
  · cases s <;> cases m <;> simp [setSlot, getSlot]

theorem getSlot_default (m : HttpSlot) : getSlot ({} : PathItem) m = none := by
  cases m <;> rfl

/-- A route contributes to path p and slot m when its path is p and the
buildPaths switch maps its upper-cased method to slot m. -/
def routeMatches (route : RouteInfo) (p : String) (m : HttpSlot) : Bool :=
  route.path == p && methodSlotOf (goToUpper route.method) == some m

/-- The last route of the list whose (path, method slot) is (p, m) — the one
whose operation survives the overwrite in buildPaths. -/
def lastMatching (routes : List RouteInfo) (p : String) (m : HttpSlot) : Option RouteInfo :=
  (routes.filter (fun route => routeMatches route p m)).getLast?

theorem getLast_cons_exists {α : Type} (b : α) (t : List α) :
    ∃ y, (b :: t).getLast? = some y := by
  induction t generalizing b with
  | nil => exact ⟨b, rfl⟩
  | cons c u ih =>
    rw [List.getLast?_cons_cons]
    exact ih c

theorem getLastQ_cons {α : Type} (a : α) (l : List α) :
    (a :: l).getLast? =
      match l.getLast? with
      | some y => some y
      | none => some a := by
  cases l with
  | nil => rfl
  | cons b t =>
    rw [List.getLast?_cons_cons]
    obtain ⟨y, hy⟩ := getLast_cons_exists b t
    rw [hy]

theorem lastMatching_cons (r : RouteInfo) (rest : List RouteInfo) (p : String)
    (m : HttpSlot) :
    lastMatching (r :: rest) p m =
      match lastMatching rest p m with
      | some x => some x
      | none => if routeMatches r p m = true then some r else none := by
  unfold lastMatching
  by_cases hq : routeMatches r p m = true
  · rw [List.filter_cons_of_pos (by simpa using hq), getLastQ_cons]
    cases (rest.filter fun route => routeMatches route p m).getLast? <;> simp [hq]
  · rw [List.filter_cons_of_neg (by simpa using hq)]
    cases (rest.filter fun route => routeMatches route p m).getLast? <;> simp [hq]

/-! ### buildPaths lemmas -/

theorem buildPathsAux_keys (p : String) (routes : List RouteInfo) :
    ∀ paths : List (String × PathItem),
      p ∈ (buildPathsAux routes paths).map Prod.fst ↔
        p ∈ routes.map RouteInfo.path ∨ p ∈ paths.map Prod.fst := by
  induction routes with
  | nil =>
    intro paths
    simp [buildPathsAux]
  | cons r rest ih =>
    intro paths
    rw [buildPathsAux, ih, mem_keys_smapInsert]
    simp only [List.map_cons, List.mem_cons]
    tauto

theorem buildPathsAux_nodup (routes : List RouteInfo) :
    ∀ paths : List (String × PathItem),
      (paths.map Prod.fst).Nodup → ((buildPathsAux routes paths).map Prod.fst).Nodup := by
  induction routes with
  | nil =>
    intro paths h
    simpa [buildPathsAux] using h
  | cons r rest ih =>
    intro paths h
    rw [buildPathsAux]
    exact ih _ (nodup_keys_smapInsert _ _ _ h)

theorem buildPathsAux_slot (p : String) (m : HttpSlot) (routes : List RouteInfo) :
    ∀ paths : List (String × PathItem),
      getSlot ((smapLookup (buildPathsAux routes paths) p).getD {}) m =
        match lastMatching routes p m with
        | some route => some (buildOperation route)
        | none => getSlot ((smapLookup paths p).getD {}) m := by
  induction routes with
  | nil =>
    intro paths
    simp [buildPathsAux, lastMatching]
  | cons r rest ih =>
    intro paths
    rw [buildPathsAux, ih, lastMatching_cons]
    rcases hlast : lastMatching rest p m with _ | x
    · simp only []
      by_cases hp : r.path = p
      · rw [← hp, smapLookup_insert_self]
        simp only [Option.getD_some]
        rw [getSlot_setSlot]
        by_cases hms : methodSlotOf (goToUpper r.method) = some m
        · have hrm : routeMatches r r.path m = true := by
            simp [routeMatches, hms]
          simp [hms, hrm]
        · have hrm : routeMatches r r.path m = false := by
            simp [routeMatches, hms]
          simp [hms, hrm]
      · rw [smapLookup_insert_ne _ _ _ _ (fun hx => hp hx.symm)]
        have hrm : routeMatches r p m = false := by
          simp [routeMatches]
          intro hx
          exact absurd hx hp
        simp [hrm]
    · simp

/-! ### Claim C8: path grouping and method slotting -/

/-- Claim C8: the assembled paths table has exactly one entry per distinct
route path (keys are the route paths, without duplicates), and each
method slot of a path holds the operation compiled from the last route with
that (method, path) — so a later duplicate silently overwrites an earlier
one, and slots with no matching route (such as POST on a GET-only path) are
absent. -/
theorem buildPaths_grouping (routes : List RouteInfo) :
    ((buildPaths routes).map Prod.fst).Nodup ∧
    (∀ p, p ∈ (buildPaths routes).map Prod.fst ↔ p ∈ routes.map RouteInfo.path) ∧
    (∀ p m, getSlot ((smapLookup (buildPaths routes) p).getD {}) m =
      Option.map buildOperation (lastMatching routes p m)) := by
  refine ⟨buildPathsAux_nodup routes [] (by simp), ?_, ?_⟩
  · intro p
    rw [buildPaths, buildPathsAux_keys]
    simp
  · intro p m
    rw [buildPaths, buildPathsAux_slot]
    rcases h : lastMatching routes p m with _ | x
    · simp [smapLookup, getSlot_default]
    · simp

/-! ### Claim C10: unsupported methods still claim a path entry -/

/-- Claim C10: a route whose upper-cased method is outside
GET/POST/PUT/DELETE still inserts (or keeps) its path in the paths table
while populating none of the four operation slots; a list holding only such
a route yields exactly one path entry whose path item is empty. -/
theorem buildPaths_unsupported_method (routes : List RouteInfo) (r : RouteInfo)
    (hr : r ∈ routes) (hm : methodSlotOf (goToUpper r.method) = none) :
    r.path ∈ (buildPaths routes).map Prod.fst ∧
    buildPaths [r] = [(r.path, ({} : PathItem))] ∧
    (∀ m, getSlot ({} : PathItem) m = none) := by
  refine ⟨?_, ?_, fun m => getSlot_default m⟩
  · rw [buildPaths, buildPathsAux_keys]
    exact Or.inl (List.mem_map.mpr ⟨r, hr, rfl⟩)
  · simp [buildPaths, buildPathsAux, smapLookup, hm, setSlot, smapInsert]

/-- Claim C10 witness: a single PATCH route produces a one-entry paths table
with an empty path item. -/
theorem buildPaths_unsupported_method_witness :
    (opExampleRoute "PATCH" "/patch-only").path ∈
      (buildPaths [opExampleRoute "PATCH" "/patch-only"]).map Prod.fst ∧
    buildPaths [opExampleRoute "PATCH" "/patch-only"] =
      [((opExampleRoute "PATCH" "/patch-only").path, ({} : PathItem))] := by
  have h := buildPaths_unsupported_method [opExampleRoute "PATCH" "/patch-only"]
    (opExampleRoute "PATCH" "/patch-only") (by simp) (by decide)
  exact ⟨h.1, h.2.1⟩

/-! ### Reflector unfolding lemmas -/

theorem resolveType_structT_fresh (env : StructEnv) (cache : List String) (n : String)
    (fields : List Field) (hc : n ∉ cache) (hl : smapLookup env n = some fields) :
    resolveType env cache (.structT n) =
      .obj (resolveProps env (n :: cache) fields) (structRequired fields) := by
  rw [resolveType, dif_neg hc, hl]

theorem resolveProps_eq (env : StructEnv) (cache : List String) (fields : List Field) :
    resolveProps env cache fields =
      fields.filterMap (fun f =>
        if fieldExcluded f = true then none
        else some (fieldExtName f, resolveType env cache f.type)) := by
  induction fields with
  | nil => rw [resolveProps]; rfl
  | cons f fs ih =>
    rw [resolveProps]
    by_cases hf : fieldExcluded f = true
    · rw [if_pos hf, ih, List.filterMap_cons]
      simp [hf]
    · rw [if_neg hf, ih, List.filterMap_cons]
      simp [hf]

/-- Strip the pointer wrappers from a type, exposing the pointee shape. -/
def stripPtr : GoType → GoType
  | .ptr t => stripPtr t
  | t => t

theorem resolveType_ref_of_cached (env : StructEnv) (n : String) :
    ∀ (t : GoType) (cache : List String), n ∈ cache → stripPtr t = .structT n →
      resolveType env cache t = .ref n := by
  intro t
  induction t with
  | basic k => intro cache hc hs; simp [stripPtr] at hs
  | timeT => intro cache hc hs; simp [stripPtr] at hs
  | ptr t ih =>
    intro cache hc hs
    rw [resolveType]
    exact ih cache hc (by simpa [stripPtr] using hs)
  | slice t ih => intro cache hc hs; simp [stripPtr] at hs
  | arrayT t ih => intro cache hc hs; simp [stripPtr] at hs
  | mapT k v ihk ihv => intro cache hc hs; simp [stripPtr] at hs
  | anyT => intro cache hc hs; simp [stripPtr] at hs
  | structT m =>
    intro cache hc hs
    simp only [stripPtr, GoType.structT.injEq] at hs
    subst hs
    rw [resolveType, dif_pos hc]
  | otherShape => intro cache hc hs; simp [stripPtr] at hs

theorem propsNames_filterMap (env : StructEnv) (cache : List String) (fields : List Field) :
    (fields.filterMap (fun f =>
        if fieldExcluded f = true then none
        else some (fieldExtName f, resolveType env cache f.type))).map Prod.fst =
      (fields.filter (fun f => !fieldExcluded f)).map fieldExtName := by
  induction fields with
  | nil => rfl
  | cons f fs ih =>
    by_cases hf : fieldExcluded f = true <;>
      simp [List.filterMap_cons, List.filter_cons, hf, ih]

/-! ### Claim C6: the fixed non-struct mapping -/

/-- Claim C6: for every non-struct type the reflector returns the fixed
mapping of the spec, totally (the embedding returns a Schema for every input,
mirroring that schema reflection never returns an error): pointers are
transparent, time.Time is a date-time string, integer widths map to integer,
float widths to number, bool and string to their kinds, sequences to array
schemas over the element, string-keyed dynamic maps to an additional
properties object, and unmatched shapes degrade to the opaque object. -/
theorem nonstruct_type_mapping (env : StructEnv) (cache : List String) :
    (∀ t, resolveType env cache (.ptr t) = resolveType env cache t) ∧
    resolveType env cache .timeT = .prim "string" (some "date-time") ∧
    (∀ k, isIntegerKind k = true → resolveType env cache (.basic k) = .prim "integer" none) ∧
    (∀ k, isFloatKind k = true → resolveType env cache (.basic k) = .prim "number" none) ∧
    resolveType env cache (.basic .boolK) = .prim "boolean" none ∧
    resolveType env cache (.basic .stringK) = .prim "string" none ∧
    (∀ t, resolveType env cache (.slice t) = .arr (resolveType env cache t)) ∧
    (∀ t, resolveType env cache (.arrayT t) = .arr (resolveType env cache t)) ∧
    resolveType env cache (.mapT (.basic .stringK) .anyT) = .objAny ∧
    resolveType env cache .anyT = .unknownObj ∧
    resolveType env cache .otherShape = .unknownObj := by
  refine ⟨fun t => by rw [resolveType], by rw [resolveType], ?_, ?_,
    by rw [resolveType]; rfl, by rw [resolveType]; rfl,
    fun t => by rw [resolveType], fun t => by rw [resolveType],
    by rw [resolveType], by rw [resolveType], by rw [resolveType]⟩
  · intro k hk
    rw [resolveType, basicKindSchema, if_pos hk]
  · intro k hk
    have hik : ¬ isIntegerKind k = true := by
      cases k <;> simp_all [isIntegerKind, isFloatKind]
    rw [resolveType, basicKindSchema, if_neg hik, if_pos hk]

/-- Claim C6 witness at concrete integer and float widths. -/
theorem nonstruct_type_mapping_witness :
    resolveType [] [] (.basic .int64K) = .prim "integer" none ∧
    resolveType [] [] (.basic .float32K) = .prim "number" none := by
  exact ⟨(nonstruct_type_mapping [] []).2.2.1 .int64K rfl,
    (nonstruct_type_mapping [] []).2.2.2.1 .float32K rfl⟩

/-! ### Claim C1: cyclic struct types terminate and keep every field -/

/-- Claim C1: reflecting a named struct whose field graph cycles back to
itself terminates (resolveType is a total function of the environment) and
produces an object schema whose properties cover exactly the non-excluded
fields in declaration order, with every self-referential field (a chain of
pointers back to the struct) resolving to a reference to the struct's named
schema rather than an expanded copy. -/
theorem circular_struct_schema (env : StructEnv) (n : String) (fields : List Field)
    (h : smapLookup env n = some fields) :
    ∃ props, resolveType env [] (.structT n) = .obj props (structRequired fields) ∧
      props.map Prod.fst = (fields.filter (fun f => !fieldExcluded f)).map fieldExtName ∧
      (∀ f ∈ fields, fieldExcluded f = false → stripPtr f.type = .structT n →
        (fieldExtName f, Schema.ref n) ∈ props) := by
  refine ⟨resolveProps env [n] fields, ?_, ?_, ?_⟩
  · exact resolveType_structT_fresh env [] n fields (by simp) h
  · rw [resolveProps_eq]
    exact propsNames_filterMap env [n] fields
  · intro f hf hex hs
    rw [resolveProps_eq]
    apply List.mem_filterMap.mpr
    refine ⟨f, hf, ?_⟩
    rw [if_neg (by simp [hex])]
    rw [resolveType_ref_of_cached env n f.type [n] (List.mem_singleton.mpr rfl) hs]

/-- The self-referential field of the CircularStruct test type. -/
def circSelfField : Field :=
  { name := "Self", tag := some "self,omitempty", type := .ptr (.structT "CircularStruct") }

/-- Field list of the CircularStruct test type: a plain name and a pointer
back to the struct itself. -/
def circFields : List Field :=
  [{ name := "Name", tag := some "name", type := .basic .stringK }, circSelfField]

def circEnv : StructEnv := [("CircularStruct", circFields)]

/-- Claim C1 witness: the CircularStruct type of the repository test reflects
to an object schema keeping both fields, the self field as a reference. -/
theorem circular_struct_schema_witness :
    ∃ props, resolveType circEnv [] (.structT "CircularStruct") =
        .obj props (structRequired circFields) ∧
      props.map Prod.fst = ["name", "self"] ∧
      ("self", Schema.ref "CircularStruct") ∈ props := by
  obtain ⟨props, h1, h2, h3⟩ :=
    circular_struct_schema circEnv "CircularStruct" circFields rfl
  refine ⟨props, h1, ?_, ?_⟩
  · rw [h2]; decide
  · have hmem := h3 circSelfField (by decide) (by decide) (by decide)
    have hname : fieldExtName circSelfField = "self" := by decide
    rw [hname] at hmem
    exact hmem

/-! ### Claim C5: field naming, exclusion and the required set -/

/-- Claim C5: a struct schema's properties are exactly the non-excluded
fields in declaration order, each named by its json annotation when present
and by the Go field name otherwise; the required set is the declaration-order
list of fields that are neither excluded, nor omitempty, nor of pointer
shape. -/
theorem struct_field_schema_rules (env : StructEnv) (n : String) (fields : List Field)
    (h : smapLookup env n = some fields) :
    resolveType env [] (.structT n) =
      .obj (fields.filterMap (fun f =>
              if fieldExcluded f = true then none
              else some (fieldExtName f, resolveType env [n] f.type)))
           (fields.filterMap (fun f =>
              if !fieldExcluded f && !fieldOmitEmpty f && !isPtrType f.type then
                some (fieldExtName f)
              else none)) ∧
    (∀ f ∈ fields, fieldExtName f = (parseJsonTag f.tag).name.getD f.name) := by
  constructor
  · rw [resolveType_structT_fresh env [] n fields (by simp) h, resolveProps_eq]
    rfl
  · intro f hf
    rfl

/-- Field list of the TaggedStruct test type exercising every tag shape. -/
def taggedFields : List Field :=
  [{ name := "IncludedField", tag := some "included_field", type := .basic .stringK },
   { name := "OmitEmptyField", tag := some "omit_empty,omitempty", type := .ptr (.basic .stringK) },
   { name := "ExcludedField", tag := some "-", type := .basic .stringK },
   { name := "RequiredField", tag := some "required_field", type := .basic .stringK },
   { name := "NoTagField", tag := none, type := .basic .stringK }]

def taggedEnv : StructEnv := [("TaggedStruct", taggedFields)]

/-- Claim C5 witness: the TaggedStruct type of the repository test — the
excluded field vanishes, tag names win, the untagged field keeps its Go name,
and the required set omits the omitempty pointer field. -/
theorem struct_field_schema_rules_witness :
    resolveType taggedEnv [] (.structT "TaggedStruct") =
      .obj (taggedFields.filterMap (fun f =>
              if fieldExcluded f = true then none
              else some (fieldExtName f, resolveType taggedEnv ["TaggedStruct"] f.type)))
           (structRequired taggedFields) ∧
    structRequired taggedFields = ["included_field", "required_field", "NoTagField"] ∧
    (taggedFields.filter (fun f => !fieldExcluded f)).map fieldExtName =
      ["included_field", "omit_empty", "required_field", "NoTagField"] := by
  refine ⟨(struct_field_schema_rules taggedEnv "TaggedStruct" taggedFields rfl).1, ?_, ?_⟩
  · decide
  · decide

/-! ### Concrete route list exercising the grouping theorem -/

/-- The TestBuildPaths scenario: two routes on one path, one on another. -/
def twoPathRoutes : List RouteInfo :=
  [{ method := "GET", path := "/users", requestType := none,
     responseType := some (.slice (.structT "TestResponse")),
     module := "users", summary := "List users" },
   { method := "POST", path := "/users", requestType := some (.structT "TestRequest"),
     responseType := some (.structT "TestResponse"),
     module := "users", summary := "Create user" },
   { method := "GET", path := "/health", requestType := none,
     responseType := some (.mapT (.basic .stringK) .anyT),
     module := "health", summary := "Health check" }]

/-- Claim C8 witness: the deduplicated keys and the slot characterization at
the TestBuildPaths route list. -/
theorem buildPaths_grouping_witness :
    ((buildPaths twoPathRoutes).map Prod.fst).Nodup ∧
    ("/users" ∈ (buildPaths twoPathRoutes).map Prod.fst ↔
      "/users" ∈ twoPathRoutes.map RouteInfo.path) ∧
    getSlot ((smapLookup (buildPaths twoPathRoutes) "/health").getD {}) .post =
      Option.map buildOperation (lastMatching twoPathRoutes "/health" .post) := by
  exact ⟨(buildPaths_grouping twoPathRoutes).1,
    (buildPaths_grouping twoPathRoutes).2.1 "/users",
    (buildPaths_grouping twoPathRoutes).2.2 "/health" .post⟩

/-- Claim C9 witness: the serializer returns non-empty text both when the
marshaller succeeds and when it fails. -/
theorem buildOpenAPISpec_always_text_witness :
    buildOpenAPISpec (fun _ => .ok "openapi: 3.0.3")
      { routes := [], typeSchemas := [] } ≠ "" ∧
    buildOpenAPISpec (fun _ => .error "marshal failed")
      { routes := [], typeSchemas := [] } ≠ "" := by
  exact ⟨(buildOpenAPISpec_always_text (fun _ => .ok "openapi: 3.0.3") _).1,
    (buildOpenAPISpec_always_text (fun _ => .error "marshal failed") _).1⟩

end LlmOpenapi
